import Mathlib

/-!
Verification development for the `esp-alloc` dual-region heap allocator.

The dual-region coordinator (`EspHeap` with its `alloc`, `dealloc`, `used`,
`free`, `empty`, `init`, `init_heap2` operations) is embedded directly from
`src/lib.rs`.  The single-region free-list engine (`Heap` from the
`linked_list_allocator` crate) is not part of the repository sources; it is
modelled from the specification, section 4.1 (RegionHeap): a free list of
blocks ordered by ascending address, first-fit scanning with alignment by
advancing the candidate start, splitting of remainders, and address-ordered
insertion with coalescing of byte-adjacent neighbours on deallocation.

Addresses and sizes are natural numbers; a null pointer is address 0, as in
the source where allocation failure is signalled by `ptr::null_mut()`.
-/

namespace EspAlloc

/-- An allocation layout: requested size in bytes and alignment, mirroring
`core::alloc::Layout`. -/
structure Layout where
  size : Nat
  align : Nat
  deriving DecidableEq, Repr

/-- Round `a` up to the next multiple of `align`. -/
def alignUp (a align : Nat) : Nat :=
  (a + align - 1) / align * align

/-- Modelled from the spec: a single-region free-list heap (the
`linked_list_allocator::Heap` engine, absent from src).  `bottom` and `top`
delimit the region; `freeList` holds the free blocks as `(address, size)`
pairs in ascending address order. -/
structure Heap where
  bottom : Nat
  top : Nat
  freeList : List (Nat × Nat)
  deriving DecidableEq, Repr

/-- Modelled from the spec: an uninitialized heap has zero capacity; its
`bottom` and `top` coincide at the null address, and it satisfies no
requests. -/
def Heap.empty : Heap :=
  { bottom := 0, top := 0, freeList := [] }

/-- Modelled from the spec: `init` establishes the address range and seeds
the free list with one block spanning the whole region. -/
def Heap.init (bottom size : Nat) : Heap :=
  { bottom := bottom, top := bottom + size, freeList := [(bottom, size)] }

/-- Modelled from the spec: first-fit scan over the free list in address
order.  A block `(a, s)` fits when advancing `a` to the required alignment
still leaves `size` bytes within the block.  On success the consumed span
`[start, start + size)` is removed and the unused front pad and tail
remainder are re-linked as free blocks. -/
def allocFrom (blocks : List (Nat × Nat)) (l : Layout) :
    Option (Nat × List (Nat × Nat)) :=
  match blocks with
  | [] => none
  | (a, s) :: rest =>
    let start := alignUp a l.align
    if start + l.size ≤ a + s then
      let front := start - a
      let tail := a + s - (start + l.size)
      some (start,
        (if 0 < front then [(a, front)] else []) ++
        (if 0 < tail then [(start + l.size, tail)] else []) ++ rest)
    else
      match allocFrom rest l with
      | some (p, rest') => some (p, (a, s) :: rest')
      | none => none

/-- Modelled from the spec: `allocate` returns the chosen address and the
updated heap, or `none` when no free block fits (exhaustion, a normal
result). -/
def Heap.allocate_first_fit (h : Heap) (l : Layout) : Option (Nat × Heap) :=
  match allocFrom h.freeList l with
  | some (p, blocks) => some (p, { h with freeList := blocks })
  | none => none

/-- Insert a block into the free list keeping ascending address order. -/
def insertBlock (blocks : List (Nat × Nat)) (b : Nat × Nat) :
    List (Nat × Nat) :=
  match blocks with
  | [] => [b]
  | (a, s) :: rest =>
    if b.1 ≤ a then b :: (a, s) :: rest
    else (a, s) :: insertBlock rest b

/-- Merge byte-adjacent neighbours in an address-ordered free list. -/
def coalesce (blocks : List (Nat × Nat)) : List (Nat × Nat) :=
  match blocks with
  | [] => []
  | (a, s) :: rest =>
    match coalesce rest with
    | [] => [(a, s)]
    | (a2, s2) :: rest' =>
      if a + s = a2 then (a, s + s2) :: rest'
      else (a, s) :: (a2, s2) :: rest'

/-- Modelled from the spec: `deallocate` reconstructs a free block at the
given address, inserts it in address order and merges byte-adjacent
neighbours. -/
def Heap.deallocate (h : Heap) (ptr : Nat) (l : Layout) : Heap :=
  { h with freeList := coalesce (insertBlock h.freeList (ptr, l.size)) }

/-- Modelled from the spec: free bytes are the sum of the free-block spans. -/
def Heap.free (h : Heap) : Nat :=
  (h.freeList.map Prod.snd).sum

/-- Modelled from the spec: used bytes are the region span minus the free
bytes. -/
def Heap.used (h : Heap) : Nat :=
  h.top - h.bottom - h.free

/-- Well-formedness of a region: every free block lies inside
`[bottom, top)`. -/
def Heap.blocksInRange (h : Heap) : Prop :=
  ∀ b ∈ h.freeList, h.bottom ≤ b.1 ∧ b.1 + b.2 ≤ h.top

instance (h : Heap) : Decidable h.blocksInRange := by
  unfold Heap.blocksInRange
  infer_instance

/-- The dual-region allocator state from `src/lib.rs`: two independent
region heaps (`heap` is region 1, `heap2` is region 2).  The
`critical_section::Mutex<RefCell<_>>` wrappers serialize access; the state
they guard is the two heaps. -/
structure EspHeap where
  heap : Heap
  heap2 : Heap
  deriving DecidableEq, Repr

/-- `EspHeap::empty`: both regions uninitialized. -/
def EspHeap.empty : EspHeap :=
  { heap := Heap.empty, heap2 := Heap.empty }

/-- `EspHeap::init`: initialize region 1. -/
def EspHeap.init (h : EspHeap) (bottom size : Nat) : EspHeap :=
  { h with heap := Heap.init bottom size }

/-- `EspHeap::init_heap2`: initialize region 2. -/
def EspHeap.init_heap2 (h : EspHeap) (bottom size : Nat) : EspHeap :=
  { h with heap2 := Heap.init bottom size }

/-- `EspHeap::used`: sum of the regions' used counts. -/
def EspHeap.used (h : EspHeap) : Nat :=
  h.heap.used + h.heap2.used

/-- `EspHeap::free`: sum of the regions' free counts. -/
def EspHeap.free (h : EspHeap) : Nat :=
  h.heap.free + h.heap2.free

/-- `GlobalAlloc::alloc` for `EspHeap`: try region 1 inside its critical
section, converting the result to a pointer with `null_mut` (address 0) as
the failure value; if the pointer is null, try region 2 the same way.
Returns the pointer and the updated state. -/
def EspHeap.alloc (h : EspHeap) (l : Layout) : Nat × EspHeap :=
  let r1 := h.heap.allocate_first_fit l
  let ptr := (r1.map Prod.fst).getD 0
  let heap1 := ((r1.map Prod.snd).getD h.heap)
  if ptr = 0 then
    let r2 := h.heap2.allocate_first_fit l
    let ptr2 := (r2.map Prod.fst).getD 0
    let heap2 := ((r2.map Prod.snd).getD h.heap2)
    (ptr2, { heap := heap1, heap2 := heap2 })
  else
    (ptr, { heap := heap1, heap2 := h.heap2 })

/-- `GlobalAlloc::dealloc` for `EspHeap`: if
`bottom_1 <= ptr && ptr <= top_1` (closed interval, as in the source),
deallocate into region 1; otherwise deallocate into region 2
unconditionally. -/
def EspHeap.dealloc (h : EspHeap) (ptr : Nat) (l : Layout) : EspHeap :=
  if h.heap.bottom ≤ ptr ∧ ptr ≤ h.heap.top then
    { h with heap := h.heap.deallocate ptr l }
  else
    { h with heap2 := h.heap2.deallocate ptr l }

/-- Critical-section events: acquiring and releasing each region's
exclusion guard. -/
inductive LockEvent where
  | acq1
  | rel1
  | acq2
  | rel2
  deriving DecidableEq, Repr

/-- Guard state transition: which guards are held after an event. -/
def lockStep (st : Bool × Bool) (e : LockEvent) : Bool × Bool :=
  match e with
  | .acq1 => (true, st.2)
  | .rel1 => (false, st.2)
  | .acq2 => (st.1, true)
  | .rel2 => (st.1, false)

/-- `true` when at some point along the trace (initial guard state `st`)
both guards are held simultaneously. -/
def bothHeldAt (st : Bool × Bool) (tr : List LockEvent) : Bool :=
  match tr with
  | [] => st.1 && st.2
  | e :: rest => (st.1 && st.2) || bothHeldAt (lockStep st e) rest

/-- The critical-section entry/exit sequence of `EspHeap::alloc`: enter and
leave region 1's section; only if the resulting pointer is null, enter and
leave region 2's section. -/
def EspHeap.allocTrace (h : EspHeap) (l : Layout) : List LockEvent :=
  let ptr := ((h.heap.allocate_first_fit l).map Prod.fst).getD 0
  [LockEvent.acq1, LockEvent.rel1] ++
    (if ptr = 0 then [LockEvent.acq2, LockEvent.rel2] else [])

/-- The critical-section entry/exit sequence of `EspHeap::dealloc`: enter
and leave region 1's section; only if the ownership test failed, enter and
leave region 2's section. -/
def EspHeap.deallocTrace (h : EspHeap) (ptr : Nat) : List LockEvent :=
  if h.heap.bottom ≤ ptr ∧ ptr ≤ h.heap.top then
    [LockEvent.acq1, LockEvent.rel1]
  else
    [LockEvent.acq1, LockEvent.rel1, LockEvent.acq2, LockEvent.rel2]

/-! Helper lemmas about the free-list engine. -/

theorem alignUp_ge (a align : Nat) (h : 0 < align) : a ≤ alignUp a align := by
  have h1 : a + align - 1 < (a + align - 1) / align * align + align :=
    Nat.lt_div_mul_add h
  unfold alignUp
  omega

theorem alignUp_one (a : Nat) : alignUp a 1 = a := by
  simp [alignUp]

theorem allocFrom_eq_none (blocks : List (Nat × Nat)) (l : Layout)
    (h : ∀ b ∈ blocks, ¬ (alignUp b.1 l.align + l.size ≤ b.1 + b.2)) :
    allocFrom blocks l = none := by
  induction blocks with
  | nil => rfl
  | cons b rest ih =>
    obtain ⟨a, s⟩ := b
    have hb : ¬ (alignUp a l.align + l.size ≤ a + s) :=
      h (a, s) (List.mem_cons_self _ _)
    have hr : ∀ b ∈ rest, ¬ (alignUp b.1 l.align + l.size ≤ b.1 + b.2) :=
      fun b hbm => h b (List.mem_cons_of_mem _ hbm)
    simp only [allocFrom]
    rw [if_neg hb, ih hr]

theorem allocFrom_isSome (blocks : List (Nat × Nat)) (l : Layout)
    (h : ∃ b ∈ blocks, alignUp b.1 l.align + l.size ≤ b.1 + b.2) :
    (allocFrom blocks l).isSome = true := by
  induction blocks with
  | nil => simp at h
  | cons b rest ih =>
    obtain ⟨a, s⟩ := b
    simp only [allocFrom]
    by_cases hc : alignUp a l.align + l.size ≤ a + s
    · rw [if_pos hc]; rfl
    · rw [if_neg hc]
      have hrest : ∃ b ∈ rest, alignUp b.1 l.align + l.size ≤ b.1 + b.2 := by
        obtain ⟨b, hbm, hbf⟩ := h
        rcases List.mem_cons.mp hbm with rfl | hbm
        · exact absurd hbf hc
        · exact ⟨b, hbm, hbf⟩
      have hs := ih hrest
      cases heq : allocFrom rest l with
      | none => rw [heq] at hs; simp at hs
      | some v => obtain ⟨p, rest'⟩ := v; rfl

theorem allocFrom_some_spec (blocks : List (Nat × Nat)) (l : Layout)
    (p : Nat) (rest : List (Nat × Nat))
    (h : allocFrom blocks l = some (p, rest)) :
    ∃ b ∈ blocks, p = alignUp b.1 l.align ∧ p + l.size ≤ b.1 + b.2 := by
  induction blocks generalizing rest with
  | nil => simp [allocFrom] at h
  | cons b bs ih =>
    obtain ⟨a, s⟩ := b
    simp only [allocFrom] at h
    by_cases hc : alignUp a l.align + l.size ≤ a + s
    · rw [if_pos hc] at h
      simp only [Option.some.injEq, Prod.mk.injEq] at h
      exact ⟨(a, s), List.mem_cons_self _ _, h.1.symm, h.1 ▸ hc⟩
    · rw [if_neg hc] at h
      cases heq : allocFrom bs l with
      | none => rw [heq] at h; simp at h
      | some v =>
        obtain ⟨p', bs'⟩ := v
        rw [heq] at h
        simp only [Option.some.injEq, Prod.mk.injEq] at h
        obtain ⟨b, hbm, hb1, hb2⟩ := ih bs' (h.1 ▸ heq)
        exact ⟨b, List.mem_cons_of_mem _ hbm, hb1, hb2⟩

theorem allocate_first_fit_eq_none (h : Heap) (l : Layout)
    (hex : ∀ b ∈ h.freeList, ¬ (alignUp b.1 l.align + l.size ≤ b.1 + b.2)) :
    h.allocate_first_fit l = none := by
  unfold Heap.allocate_first_fit
  rw [allocFrom_eq_none h.freeList l hex]

theorem allocate_first_fit_isSome (h : Heap) (l : Layout)
    (hfit : ∃ b ∈ h.freeList, alignUp b.1 l.align + l.size ≤ b.1 + b.2) :
    ∃ a h', h.allocate_first_fit l = some (a, h') := by
  have hs := allocFrom_isSome h.freeList l hfit
  unfold Heap.allocate_first_fit
  cases heq : allocFrom h.freeList l with
  | none => rw [heq] at hs; simp at hs
  | some v =>
    obtain ⟨p, blocks⟩ := v
    exact ⟨p, { h with freeList := blocks }, rfl⟩

theorem allocate_first_fit_addr_bounds (h : Heap) (l : Layout) (a : Nat)
    (h' : Heap) (hwf : h.blocksInRange) (hal : 0 < l.align)
    (hs : h.allocate_first_fit l = some (a, h')) :
    h.bottom ≤ a ∧ a + l.size ≤ h.top := by
  unfold Heap.allocate_first_fit at hs
  cases heq : allocFrom h.freeList l with
  | none => rw [heq] at hs; simp at hs
  | some v =>
    obtain ⟨p, blocks⟩ := v
    rw [heq] at hs
    simp only [Option.some.injEq, Prod.mk.injEq] at hs
    obtain ⟨b, hbm, hb1, hb2⟩ := allocFrom_some_spec h.freeList l p blocks heq
    obtain ⟨hlo, hhi⟩ := hwf b hbm
    have hge : b.1 ≤ p := hb1 ▸ alignUp_ge b.1 l.align hal
    omega

/-! Claim theorems. -/

/-- Claim C1: deallocation ownership is decided by a closed-interval
membership test on region 1 (`bottom_1 ≤ ptr ≤ top_1`, inclusive of
`top_1`): if it holds the block is deallocated into region 1, otherwise it
is deallocated into region 2 unconditionally, with no membership check
against region 2; in particular a pointer equal to region 1's `top` routes
to region 1. -/
theorem dealloc_ownership_routing (h : EspHeap) (ptr : Nat) (l : Layout)
    (hbt : h.heap.bottom ≤ h.heap.top) :
    (h.heap.bottom ≤ ptr ∧ ptr ≤ h.heap.top →
      h.dealloc ptr l = { h with heap := h.heap.deallocate ptr l }) ∧
    (¬ (h.heap.bottom ≤ ptr ∧ ptr ≤ h.heap.top) →
      h.dealloc ptr l = { h with heap2 := h.heap2.deallocate ptr l }) ∧
    h.dealloc h.heap.top l =
      { h with heap := h.heap.deallocate h.heap.top l } := by
  refine ⟨fun hm => ?_, fun hm => ?_, ?_⟩
  · unfold EspHeap.dealloc; rw [if_pos hm]
  · unfold EspHeap.dealloc; rw [if_neg hm]
  · unfold EspHeap.dealloc; rw [if_pos ⟨hbt, Nat.le_refl _⟩]

/-- Witness for C1 at a concrete state: region 1 is `[100, 200]`, and a
deallocation at address 200 (region 1's `top`) routes into region 1. -/
theorem dealloc_ownership_routing_witness :
    (100 : Nat) ≤ 200 ∧
    EspHeap.dealloc { heap := ⟨100, 200, []⟩, heap2 := ⟨300, 400, []⟩ }
        200 ⟨16, 1⟩ =
      { heap := Heap.deallocate ⟨100, 200, []⟩ 200 ⟨16, 1⟩,
        heap2 := ⟨300, 400, []⟩ } :=
  ⟨by decide,
    (dealloc_ownership_routing
      { heap := ⟨100, 200, []⟩, heap2 := ⟨300, 400, []⟩ } 200 ⟨16, 1⟩
      (by decide)).2.2⟩

/-- Claim C2: allocation attempts region 1 first; region 2 is attempted if
and only if region 1 returned an empty result; the call returns whichever
attempt succeeded, or the null pointer when both failed.  The hypotheses
record that region 1's blocks lie in its range and its base address is
non-null, which is what guarantees a successful region-1 pointer is not
mistaken for the null failure value. -/
theorem alloc_prefers_region1 (h : EspHeap) (l : Layout)
    (hwf : h.heap.blocksInRange) (hb : 0 < h.heap.bottom)
    (hal : 0 < l.align) :
    (∀ a h1, h.heap.allocate_first_fit l = some (a, h1) →
      h.alloc l = (a, { heap := h1, heap2 := h.heap2 })) ∧
    (h.heap.allocate_first_fit l = none →
      (∀ a2 h2, h.heap2.allocate_first_fit l = some (a2, h2) →
        h.alloc l = (a2, { heap := h.heap, heap2 := h2 })) ∧
      (h.heap2.allocate_first_fit l = none → h.alloc l = (0, h))) := by
  refine ⟨fun a h1 hs => ?_, fun hn => ⟨fun a2 h2 hs2 => ?_, fun hn2 => ?_⟩⟩
  · have hbd := allocate_first_fit_addr_bounds h.heap l a h1 hwf hal hs
    have hpos : ¬ a = 0 := by omega
    simp [EspHeap.alloc, hs, hpos]
  · simp [EspHeap.alloc, hn, hs2]
  · simp [EspHeap.alloc, hn, hn2]

/-- Witness for C2 at a concrete state where region 1 succeeds: the result
is region 1's address and region 2 is untouched. -/
theorem alloc_prefers_region1_witness :
    (Heap.blocksInRange ⟨100, 200, [(100, 100)]⟩ ∧ (0 : Nat) < 100 ∧
      (0 : Nat) < 1) ∧
    EspHeap.alloc { heap := ⟨100, 200, [(100, 100)]⟩, heap2 := ⟨300, 400, []⟩ }
        ⟨16, 1⟩ =
      (100, { heap := ⟨100, 200, [(116, 84)]⟩, heap2 := ⟨300, 400, []⟩ }) :=
  ⟨⟨by decide, by decide, by decide⟩,
    (alloc_prefers_region1
      { heap := ⟨100, 200, [(100, 100)]⟩, heap2 := ⟨300, 400, []⟩ } ⟨16, 1⟩
      (by decide) (by decide) (by decide)).1
      100 ⟨100, 200, [(116, 84)]⟩ (by decide)⟩

/-- Claim C3: when region 1 has no free block large enough for the request
and region 2 has a free block that fits it, allocation succeeds and the
returned address lies within region 2's half-open span
`[bottom_2, top_2)`. -/
theorem alloc_region2_fallback (h : EspHeap) (l : Layout)
    (hwf2 : h.heap2.blocksInRange) (hb2 : 0 < h.heap2.bottom)
    (hal : 0 < l.align) (hsz : 0 < l.size)
    (hex1 : ∀ b ∈ h.heap.freeList,
      ¬ (alignUp b.1 l.align + l.size ≤ b.1 + b.2))
    (hfit2 : ∃ b ∈ h.heap2.freeList,
      alignUp b.1 l.align + l.size ≤ b.1 + b.2) :
    ∃ a h', h.alloc l = (a, h') ∧ 0 < a ∧
      h.heap2.bottom ≤ a ∧ a < h.heap2.top := by
  have hnone := allocate_first_fit_eq_none h.heap l hex1
  obtain ⟨a, h2', hs2⟩ := allocate_first_fit_isSome h.heap2 l hfit2
  have hbd := allocate_first_fit_addr_bounds h.heap2 l a h2' hwf2 hal hs2
  refine ⟨a, { heap := h.heap, heap2 := h2' }, ?_, by omega, hbd.1, by omega⟩
  simp [EspHeap.alloc, hnone, hs2]

/-- Witness for C3 at a concrete state: region 1 is exhausted (empty free
list), region 2 is `[300, 400)` with 100 free bytes, and a 16-byte request
lands in region 2's span. -/
theorem alloc_region2_fallback_witness :
    (Heap.blocksInRange ⟨300, 400, [(300, 100)]⟩ ∧ (0 : Nat) < 300 ∧
      (0 : Nat) < 1 ∧ (0 : Nat) < 16 ∧
      (∀ b ∈ ([] : List (Nat × Nat)), ¬ (alignUp b.1 1 + 16 ≤ b.1 + b.2)) ∧
      (∃ b ∈ [((300 : Nat), (100 : Nat))], alignUp b.1 1 + 16 ≤ b.1 + b.2)) ∧
    (∃ a h',
      EspHeap.alloc { heap := ⟨100, 116, []⟩, heap2 := ⟨300, 400, [(300, 100)]⟩ }
          ⟨16, 1⟩ = (a, h') ∧
      0 < a ∧ 300 ≤ a ∧ a < 400) :=
  ⟨⟨by decide, by decide, by decide, by decide, by decide, by decide⟩,
    alloc_region2_fallback
      { heap := ⟨100, 116, []⟩, heap2 := ⟨300, 400, [(300, 100)]⟩ } ⟨16, 1⟩
      (by decide) (by decide) (by decide) (by decide) (by decide) (by decide)⟩

/-- Claim C4: exhaustion of both regions is signalled as a synchronous null
result from `alloc`, with the state unchanged — no exception, no fatal
path, no internal retry. -/
theorem alloc_exhaustion_null (h : EspHeap) (l : Layout)
    (h1 : h.heap.allocate_first_fit l = none)
    (h2 : h.heap2.allocate_first_fit l = none) :
    h.alloc l = (0, h) := by
  simp [EspHeap.alloc, h1, h2]

/-- Witness for C4: on the fully uninitialized allocator, a 16-byte
request returns the null pointer with the state unchanged. -/
theorem alloc_exhaustion_null_witness :
    (Heap.allocate_first_fit Heap.empty ⟨16, 1⟩ = none ∧
      Heap.allocate_first_fit Heap.empty ⟨16, 1⟩ = none) ∧
    EspHeap.alloc EspHeap.empty ⟨16, 1⟩ = (0, EspHeap.empty) :=
  ⟨⟨by decide, by decide⟩,
    alloc_exhaustion_null EspHeap.empty ⟨16, 1⟩ (by decide) (by decide)⟩

/-- Claim C5: `used` and `free` each return the sum of the corresponding
per-region count over both regions, and on the allocator with zero
initialized regions both return zero. -/
theorem used_free_sum_over_regions :
    (∀ h : EspHeap, h.used = h.heap.used + h.heap2.used ∧
      h.free = h.heap.free + h.heap2.free) ∧
    EspHeap.empty.used = 0 ∧ EspHeap.empty.free = 0 :=
  ⟨fun _ => ⟨rfl, rfl⟩, rfl, rfl⟩

/-- Claim C6: first-fit in address order — with free blocks of sizes
`[10, 30, 20]` at increasing addresses, a request for 15 bytes is served
from the 30-byte block (the first that fits), splitting its 15-byte
remainder, and not from the 20-byte block. -/
theorem first_fit_serves_first_fitting_block (bottom top a1 a2 a3 : Nat) :
    Heap.allocate_first_fit ⟨bottom, top, [(a1, 10), (a2, 30), (a3, 20)]⟩
        ⟨15, 1⟩ =
      some (a2, ⟨bottom, top, [(a1, 10), (a2 + 15, 15), (a3, 20)]⟩) := by
  have h1 : ¬ (a1 + 15 ≤ a1 + 10) := by omega
  have h2 : a2 + 15 ≤ a2 + 30 := by omega
  have h3 : ¬ (0 < a2 - a2) := by omega
  have h4 : a2 + 30 - (a2 + 15) = 15 := by omega
  simp [Heap.allocate_first_fit, allocFrom, alignUp_one, h1, h2, h3, h4]

/-- Claim C7: split/merge round-trip — from a single 100-byte free block,
allocate A (16 bytes) then B (16 bytes), then deallocate them in either
order; `free` returns to the original span (100) and the free list
coalesces back to the single original block, with no accounting drift. -/
theorem split_merge_round_trip :
    let h0 : EspHeap := { heap := Heap.init 1000 100, heap2 := Heap.empty }
    let r1 := h0.alloc ⟨16, 1⟩
    let r2 := r1.2.alloc ⟨16, 1⟩
    let hab := (r2.2.dealloc r1.1 ⟨16, 1⟩).dealloc r2.1 ⟨16, 1⟩
    let hba := (r2.2.dealloc r2.1 ⟨16, 1⟩).dealloc r1.1 ⟨16, 1⟩
    r1.1 = 1000 ∧ r2.1 = 1016 ∧
    hab.free = (Heap.init 1000 100).free ∧
    hab.heap.freeList = [(1000, 100)] ∧
    hba.free = (Heap.init 1000 100).free ∧
    hba.heap.freeList = [(1000, 100)] := by
  decide

/-- Claim C8: region-2 operations frame region 1 — when region 1 cannot
serve a request, the fallback allocation from region 2 leaves region 1's
state unchanged, and deallocating the returned region-2 address (which lies
above region 1's disjoint range) leaves region 1's free list and byte
accounting unchanged. -/
theorem region2_ops_frame_region1 (h : EspHeap) (l l' : Layout) (a : Nat)
    (h2' : Heap)
    (hfail : h.heap.allocate_first_fit l = none)
    (hsucc2 : h.heap2.allocate_first_fit l = some (a, h2'))
    (hwf2 : h.heap2.blocksInRange) (hal : 0 < l.align)
    (hdisj : h.heap.top < h.heap2.bottom) :
    h.alloc l = (a, { heap := h.heap, heap2 := h2' }) ∧
    (({ heap := h.heap, heap2 := h2' } : EspHeap).dealloc a l').heap =
      h.heap ∧
    (({ heap := h.heap, heap2 := h2' } : EspHeap).dealloc a l').heap.free =
      h.heap.free ∧
    (({ heap := h.heap, heap2 := h2' } : EspHeap).dealloc a l').heap.used =
      h.heap.used := by
  have hbd := allocate_first_fit_addr_bounds h.heap2 l a h2' hwf2 hal hsucc2
  have hnot : ¬ (h.heap.bottom ≤ a ∧ a ≤ h.heap.top) := by omega
  refine ⟨by simp [EspHeap.alloc, hfail, hsucc2], ?_, ?_, ?_⟩ <;>
    simp [EspHeap.dealloc, hnot]

/-- Witness for C8 at a concrete state: region 1 `[100, 116)` exhausted,
region 2 `[300, 400)`; the fallback allocation and its deallocation leave
region 1 untouched. -/
theorem region2_ops_frame_region1_witness :
    (Heap.allocate_first_fit ⟨100, 116, []⟩ ⟨16, 1⟩ = none ∧
      Heap.allocate_first_fit ⟨300, 400, [(300, 100)]⟩ ⟨16, 1⟩ =
        some (300, ⟨300, 400, [(316, 84)]⟩) ∧
      Heap.blocksInRange ⟨300, 400, [(300, 100)]⟩ ∧ (0 : Nat) < 1 ∧
      (116 : Nat) < 300) ∧
    (EspHeap.alloc { heap := ⟨100, 116, []⟩, heap2 := ⟨300, 400, [(300, 100)]⟩ }
        ⟨16, 1⟩ =
      (300, { heap := ⟨100, 116, []⟩, heap2 := ⟨300, 400, [(316, 84)]⟩ }) ∧
    (({ heap := ⟨100, 116, []⟩, heap2 := ⟨300, 400, [(316, 84)]⟩ } :
        EspHeap).dealloc 300 ⟨16, 1⟩).heap = ⟨100, 116, []⟩ ∧
    (({ heap := ⟨100, 116, []⟩, heap2 := ⟨300, 400, [(316, 84)]⟩ } :
        EspHeap).dealloc 300 ⟨16, 1⟩).heap.free =
      Heap.free ⟨100, 116, []⟩ ∧
    (({ heap := ⟨100, 116, []⟩, heap2 := ⟨300, 400, [(316, 84)]⟩ } :
        EspHeap).dealloc 300 ⟨16, 1⟩).heap.used =
      Heap.used ⟨100, 116, []⟩) :=
  ⟨⟨by decide, by decide, by decide, by decide, by decide⟩,
    region2_ops_frame_region1
      { heap := ⟨100, 116, []⟩, heap2 := ⟨300, 400, [(300, 100)]⟩ }
      ⟨16, 1⟩ ⟨16, 1⟩ 300 ⟨300, 400, [(316, 84)]⟩
      (by decide) (by decide) (by decide) (by decide) (by decide)⟩

/-- Claim C9: in every `alloc` and every `dealloc` call, the two regions'
critical sections are strictly sequential — at no point along the
critical-section event trace are both guards held simultaneously. -/
theorem guards_never_both_held (h : EspHeap) (l : Layout) (ptr : Nat) :
    bothHeldAt (false, false) (h.allocTrace l) = false ∧
    bothHeldAt (false, false) (h.deallocTrace ptr) = false := by
  constructor
  · simp only [EspHeap.allocTrace]
    split_ifs <;> decide
  · simp only [EspHeap.deallocTrace]
    split_ifs <;> decide

/-- Claim C10: an uninitialized region 1 has `bottom = top` (both null), so
for every non-null address the closed-interval ownership test fails and the
deallocation is routed unconditionally into region 2. -/
theorem dealloc_uninit_region1_routes_region2 (h : EspHeap) (ptr : Nat)
    (l : Layout) (he : h.heap = Heap.empty) (hp : 0 < ptr) :
    Heap.empty.bottom = Heap.empty.top ∧
    h.dealloc ptr l = { h with heap2 := h.heap2.deallocate ptr l } := by
  refine ⟨rfl, ?_⟩
  have hnot : ¬ (h.heap.bottom ≤ ptr ∧ ptr ≤ h.heap.top) := by
    rw [he]
    show ¬ (0 ≤ ptr ∧ ptr ≤ 0)
    omega
  simp [EspHeap.dealloc, hnot]

/-- Witness for C10: with region 1 uninitialized and region 2 `[300, 400)`,
deallocating address 42 (owned by neither region) is routed into
region 2. -/
theorem dealloc_uninit_region1_routes_region2_witness :
    (({ heap := Heap.empty, heap2 := ⟨300, 400, []⟩ } : EspHeap).heap =
        Heap.empty ∧ (0 : Nat) < 42) ∧
    (Heap.empty.bottom = Heap.empty.top ∧
      ({ heap := Heap.empty, heap2 := ⟨300, 400, []⟩ } : EspHeap).dealloc
          42 ⟨16, 1⟩ =
        { heap := Heap.empty,
          heap2 := Heap.deallocate ⟨300, 400, []⟩ 42 ⟨16, 1⟩ }) :=
  ⟨⟨rfl, by decide⟩,
    dealloc_uninit_region1_routes_region2
      { heap := Heap.empty, heap2 := ⟨300, 400, []⟩ } 42 ⟨16, 1⟩ rfl
      (by decide)⟩

end EspAlloc
